import Mathlib

/-!
Verification of the AdNauseam-Obscure automation core: a shallow embedding of
the seeded RNG (`src/automation/humanize.ts`), the query generator
(`src/automation/queryGenerator.ts`) and the shopping-session loop
(`src/unnamed/part_000`), together with proofs of the specified properties.

JavaScript 32-bit integer operations (`>>> 0`, `| 0`, `Math.imul`, `^`, `>>>`)
are modelled on the unsigned 32-bit bit pattern, i.e. as natural numbers
reduced modulo 2^32; this is bit-for-bit the semantics of the source, since a
two's-complement signed result and its unsigned pattern agree modulo 2^32.
JavaScript `number` values that are used as real quantities (the `[0,1)` RNG
draw, `randomInt` bounds, probability thresholds) are modelled as rationals;
every arithmetic step performed on them in the source stays well below the
2^53 exactness bound of IEEE doubles (draw numerators are < 2^32 and every
collection length and integer range in the repository is tiny), so the
rational model is exact.  Probability literals such as `0.35` denote the
nearest IEEE double, which differs from the rational `35/100` by less than
10^-16; since the compared draw `u / 2^32` has granularity 2^-32 and none of
the thresholds used (0.2, 0.25, 0.28, 0.35) has `p * 2^32` within 10^-7 of an
integer, `u / 2^32 < double(p)` and `u / 2^32 < p` agree for every `u`, and
the rational thresholds below are exact models of the source comparisons.

Batteries marks the `Rat` field operations `@[irreducible]`; that is a purely
elaborator-side setting, and it is reset here so that concrete executions of
the embedded code can be checked by `decide`.
-/

section RatReducible

set_option allowUnsafeReducibility true

attribute [semireducible] Rat.mul Rat.add Rat.sub Rat.inv

end RatReducible

/-! ## The RNG: `mulberry32` (src/automation/humanize.ts, lines 3-12) -/

/-- One call of the closure returned by `mulberry32`: takes the captured state
`a` (a 32-bit pattern) and returns the 32-bit numerator of the draw (the
source returns that numerator divided by 2^32) together with the new state.
Source:
  a |= 0; a = (a + 0x6d2b79f5) | 0;
  let t = Math.imul(a ^ (a >>> 15), 1 | a);
  t = (t + Math.imul(t ^ (t >>> 7), 61 | t)) ^ t;
  return ((t ^ (t >>> 14)) >>> 0) / 4294967296; -/
def mulberry32Step (a : Nat) : Nat × Nat :=
  let a1 := (a + 0x6d2b79f5) % 4294967296
  let t1 := ((a1 ^^^ (a1 >>> 15)) * (1 ||| a1)) % 4294967296
  let t2 := (((t1 + ((t1 ^^^ (t1 >>> 7)) * (61 ||| t1)) % 4294967296) % 4294967296) ^^^ t1) % 4294967296
  (((t2 ^^^ (t2 >>> 14))) % 4294967296, a1)

/-- `let a = seed >>> 0`: JS `ToUint32` of the seed.  For integral seeds this
is reduction modulo 2^32 (Lean's `Int.emod` by a positive number lands in
`[0, 2^32)`, exactly like `ToUint32`). -/
def mulberry32Init (seed : Int) : Nat := (seed % 4294967296).toNat

/-- The state of `mulberry32 seed` just before its (n+1)-st call. -/
def mulberryState (seed : Int) : Nat → Nat
  | 0 => mulberry32Init seed
  | n + 1 => (mulberry32Step (mulberryState seed n)).2

/-- The value of a draw with numerator `u`, as a rational in `[0,1)`: the
value the JS rng call returns. -/
def rngQ (u : Nat) : ℚ := (u : ℚ) / 4294967296

/-- The n-th value returned by a generator freshly built by `mulberry32 seed`. -/
def mulberryDraw (seed : Int) (n : Nat) : ℚ :=
  rngQ (mulberry32Step (mulberryState seed n)).1

/-! ## `randomInt` (humanize.ts, lines 14-19)

`randomInt(rng, minInclusive, maxInclusive)`:
  const min = Math.ceil(minInclusive); const max = Math.floor(maxInclusive);
  if (max < min) return min;
  return Math.floor(rng() * (max - min + 1)) + min; -/

/-- The non-degenerate arm of `randomInt`, as a function of the raw 32-bit
draw numerator `u`. -/
def randomIntCore (u : Nat) (lo hi : ℚ) : Int :=
  ⌊rngQ u * ((⌊hi⌋ : ℚ) - (⌈lo⌉ : ℚ) + 1)⌋ + ⌈lo⌉

/-- `randomInt` with explicit state passing: the pair is (result, new rng
state).  The degenerate branch returns before `rng()` is called, so it does
not advance the state. -/
def randomInt (a : Nat) (lo hi : ℚ) : Int × Nat :=
  if ⌊hi⌋ < ⌈lo⌉ then (⌈lo⌉, a)
  else (randomIntCore (mulberry32Step a).1 lo hi, (mulberry32Step a).2)

/-! ## `randomChoice` (humanize.ts, lines 21-24)

`randomChoice(rng, items)`:
  if (items.length === 0) throw new Error("randomChoice: empty array");
  return items[Math.floor(rng() * items.length)]!;

The throw is modelled as `none`; it happens before `rng()` is called, so the
state is unchanged in that case.  For `u < 2^32` and the tiny collection
sizes in this repository, the double arithmetic `Math.floor(rng() * n)` is
exact and equals the natural-number division `u * n / 2^32`. -/

def chooseIdx (u n : Nat) : Nat := u * n / 4294967296

def randomChoice {α : Type} (a : Nat) (items : List α) : Option α × Nat :=
  if items.length = 0 then (none, a)
  else
    ((items[chooseIdx (mulberry32Step a).1 items.length]?), (mulberry32Step a).2)

/-- Total variant used where the source indexes with `!` into a collection it
knows is non-empty: the default is never returned at such call sites (the
index is always in bounds, see `chooseIdx_lt`). -/
def pick {α : Type} (a : Nat) (items : List α) (dflt : α) : α × Nat :=
  let r := randomChoice a items
  (r.1.getD dflt, r.2)

/-! ## Whitespace handling

`isWs` models the JS `\s` character class (as used by `String.prototype.trim`
and `/\s+/g`): ASCII whitespace, NBSP, the Unicode space separators, the line
and paragraph separators, and the BOM. -/

def isWs (c : Char) : Bool :=
  c = ' ' || c = '\t' || c = '\n' || c = '\x0b' || c = '\x0c' || c = '\r' ||
  c = '\u00A0' || c = '\u1680' || ('\u2000' ≤ c && c ≤ '\u200A') ||
  c = '\u2028' || c = '\u2029' || c = '\u202F' || c = '\u205F' ||
  c = '\u3000' || c = '\uFEFF'

/-- `replace(/\s+/g, " ")`: every maximal run of whitespace becomes one `' '`.
The Boolean flag records whether we are inside a whitespace run whose
replacement `' '` has already been emitted. -/
def collapseGo : Bool → List Char → List Char
  | _, [] => []
  | inRun, c :: cs =>
    if isWs c then
      if inRun then collapseGo true cs else ' ' :: collapseGo true cs
    else c :: collapseGo false cs

def collapseWsL (l : List Char) : List Char := collapseGo false l

def collapseStr (s : String) : String := ⟨collapseWsL s.data⟩

/-- `String.prototype.trim`: strip leading and trailing whitespace. -/
def trimL (l : List Char) : List Char :=
  (((l.dropWhile fun c => isWs c).reverse.dropWhile fun c => isWs c)).reverse

def jsTrimStr (s : String) : String := ⟨trimL s.data⟩

/-- A string containing at least one non-whitespace character (hence trimming
and collapsing it can never yield the empty string). -/
def hasSolid (s : String) : Bool := s.data.any fun c => !isWs c

/-- First character, if any, is not whitespace. -/
def headNotWs (l : List Char) : Bool :=
  match l with
  | [] => true
  | c :: _ => !isWs c

/-- No two consecutive whitespace characters (in particular no double space). -/
def noTwoWs (l : List Char) : Prop :=
  List.Chain' (fun x y => ¬(isWs x = true ∧ isWs y = true)) l

/-! ## Seed-phrase loading (queryGenerator.ts, lines 151-169) -/

/-- `content.split(/\r?\n/g)`, first phase: split at every `'\n'`.  A `'\r'`
immediately preceding a split point is removed by `dropTrailingCR` below,
which together is exactly the `/\r?\n/` separator (a lone `'\r'` is not a
separator in JS and is kept). -/
def splitOnNl : List Char → List (List Char)
  | [] => [[]]
  | c :: cs =>
    let r := splitOnNl cs
    if c = '\n' then [] :: r
    else
      match r with
      | [] => [[c]]
      | h :: t => (c :: h) :: t

def dropTrailingCR (l : List Char) : List Char :=
  match l.getLast? with
  | some c => if c = '\r' then l.dropLast else l
  | none => l

def splitLines (s : String) : List String :=
  ((splitOnNl s.data).map dropTrailingCR).map String.mk

/-- queryGenerator.ts lines 151-156:
  const s = line.trim();
  if (!s) return undefined;
  if (s.startsWith("#")) return undefined;
  return s;
(`s.startsWith("#")` for the one-character pattern is: first character is
`'#'`.) -/
def normalizeSeedLine (line : String) : Option String :=
  let s := jsTrimStr line
  if s.data.isEmpty then none
  else if s.data.head? = some '#' then none
  else some s

/-- The pure content of `loadSeedPhrases`: `none` models an absent `seedFile`
option or any failed read (the `catch` branch) — both produce `[]`;
`some content` models a successful read of the file text. -/
def loadSeedPhrases (content : Option String) : List String :=
  match content with
  | none => []
  | some c => (splitLines c).filterMap normalizeSeedLine

/-- `buildQuerySource` (queryGenerator.ts lines 245-250) loads the phrase
list once at construction and closes over it immutably; `nextQuery` is
`templateQuery` over the shared rng with that fixed list. -/
def buildQuerySourcePhrases (content : Option String) : List String :=
  loadSeedPhrases content

/-! ## Vocabulary tables (queryGenerator.ts, lines 12-149) -/

def categories : List String :=
  ["wireless earbuds", "gaming laptop", "4k monitor", "robot vacuum",
   "air purifier", "standing desk", "office chair", "running shoes",
   "winter jacket", "skin care serum", "vitamin d supplement",
   "protein powder", "electric toothbrush", "blender", "espresso machine",
   "smartwatch", "phone case", "car dash cam", "tool set", "lego set",
   "mechanical keyboard", "noise cancelling headphones", "camping tent",
   "hiking backpack", "yoga mat", "sunscreen", "electric scooter",
   "cat food", "dog shampoo", "air fryer", "rice cooker", "mattress topper",
   "humidifier", "dehumidifier", "printer ink", "ssd 2tb", "router wifi 6e",
   "smart light bulbs", "coffee grinder"]

def adjectives : List String :=
  ["best", "cheap", "premium", "budget", "top rated", "durable",
   "lightweight", "waterproof", "compact", "new", "refurbished",
   "eco friendly", "quiet", "portable", "high performance"]

def intents : List String :=
  ["buy", "deals", "price", "sale", "discount", "free shipping", "near me",
   "online", "coupon", "clearance", "bundle", "gift", "student discount"]

def brands : List String :=
  ["Samsung", "Apple", "Sony", "LG", "Dell", "HP", "Lenovo", "Nike",
   "Adidas", "Bosch", "Philips", "Dyson", "Logitech", "Anker", "Asus",
   "Acer", "Canon", "Nikon", "KitchenAid", "Cuisinart", "Instant Pot",
   "Razer", "Corsair", "New Balance", "Puma"]

def topics : List String :=
  ["how to make sourdough starter", "why do cats knead blankets",
   "history of the silk road", "best time to visit iceland",
   "how to learn piano", "moon phases calendar",
   "chess opening for beginners", "what is photosynthesis",
   "stoicism basics", "meditation breathing technique",
   "python list comprehension", "linux fish shell tips",
   "how to fix a leaky faucet", "volcanoes around the world",
   "recipe for ramen broth", "difference between espresso and coffee",
   "how to train for a 5k", "minimalist capsule wardrobe",
   "book recommendations sci fi", "how to grow basil indoors"]

def locations : List String :=
  ["near me", "in tokyo", "in berlin", "in new york", "in london",
   "in san francisco", "in sydney", "in toronto"]

/-- Inline array at queryGenerator.ts line 179. -/
def priceCapAmounts : List Nat := [25, 50, 100, 200, 300, 500, 1000]

/-- Inline array at queryGenerator.ts line 181. -/
def yearTags : List Nat := [2024, 2025]

/-- Inline array at queryGenerator.ts lines 189-199. -/
def mixFragments : List String :=
  ["for beginners", "explained", "meaning", "tips", "checklist", "guide",
   "vs", "and", "ideas"]

/-- Inline array at queryGenerator.ts line 211. -/
def questionWords : List String := ["why", "how", "what", "when"]

/-- Inline array at queryGenerator.ts line 224. -/
def glueWords : List String := ["and", "vs", "with", "for"]

/-- Inline array at queryGenerator.ts lines 233-236. -/
def qualifierSuffixes : List String :=
  ["review", "comparison", "specs", "warranty", "setup", "troubleshooting"]

/-! ## The query generator: `templateQuery` (queryGenerator.ts, lines 171-243) -/

/-- One `rng() < p` draw: advances the state and compares the draw with the
threshold. -/
def chanceDraw (a : Nat) (p : ℚ) : Bool × Nat :=
  (decide (rngQ (mulberry32Step a).1 < p), (mulberry32Step a).2)

/-- `cond ? randomChoice(rng, items) : undefined` (the Boolean has already
been drawn). -/
def optPick (go : Bool) (a : Nat) (items : List String) : Option String × Nat :=
  if go then
    let r := pick a items ""
    (some r.1, r.2)
  else (none, a)

/-- Template interpolation `${x ?? ""}`. -/
def optStr (o : Option String) : String := o.getD ""

/-- Template interpolation with JS string truthiness:
`${x ? `${x} ` : ""}` — the empty string is falsy. -/
def spacedOpt (o : Option String) : String :=
  match o with
  | some s => if s.data.isEmpty then "" else s ++ " "
  | none => ""

/-- `${x ? ` ${x}` : ""}` (leading space variant, pattern at line 218). -/
def spacedPre (o : Option String) : String :=
  match o with
  | some s => if s.data.isEmpty then "" else " " ++ s
  | none => ""

/-- `topic ?? randomChoice(rng, topics)`: the fallback choice is only drawn
when `topic` is undefined (JS `??` is lazy on its right operand). -/
def topicOr (topic : Option String) (a : Nat) : String × Nat :=
  match topic with
  | some t => (t, a)
  | none => pick a topics ""

/-- The body of the pattern closure selected by `randomChoice(rng, patterns)`
(queryGenerator.ts lines 202-228), defunctionalized: `i` is the index of the
chosen closure in the 12-element `patterns` array, and only the chosen
closure's internal draws happen.  The source array has exactly 12 entries and
the selection index is always `< 12`, so the catch-all arm is the last
pattern. -/
def applyPattern (i : Nat) (a : Nat)
    (seed brand priceCap year location topic unrelatedFragment : Option String)
    (category adjective intent : String) : String × Nat :=
  match i with
  | 0 => (jsTrimStr (adjective ++ " " ++ category ++ " " ++ optStr year), a)
  | 1 => (jsTrimStr (spacedOpt brand ++ category ++ " " ++ intent), a)
  | 2 => (jsTrimStr (category ++ " " ++ intent ++ " " ++ optStr priceCap), a)
  | 3 => (jsTrimStr (spacedOpt seed ++ category ++ " " ++ intent), a)
  | 4 => (jsTrimStr (adjective ++ " " ++ spacedOpt brand ++ category ++ " " ++ intent), a)
  | 5 => (jsTrimStr (category ++ " " ++ intent ++ " " ++ optStr year), a)
  | 6 =>
    let rq := pick a questionWords ""
    let rt := topicOr topic rq.2
    (collapseStr (jsTrimStr (category ++ " " ++ rq.1 ++ " " ++ rt.1)), rt.2)
  | 7 =>
    let rt := topicOr topic a
    (jsTrimStr (rt.1 ++ " " ++ category), rt.2)
  | 8 => (jsTrimStr (category ++ " " ++ optStr location ++ " " ++ intent), a)
  | 9 =>
    let rt := topicOr topic a
    (jsTrimStr (spacedOpt seed ++ rt.1 ++ " " ++ category), rt.2)
  | 10 =>
    (collapseStr (jsTrimStr (adjective ++ " " ++ category ++ " " ++
      optStr unrelatedFragment ++ " " ++ spacedPre topic)), a)
  | _ =>
    let ra := pick a categories ""
    let rb := pick ra.2 topics ""
    let rg := pick rb.2 glueWords ""
    (jsTrimStr (ra.1 ++ " " ++ rg.1 ++ " " ++ rb.1), rg.2)

/-- The independent value draws of `templateQuery` (queryGenerator.ts lines
172-200), in source order; `a` is the rng state after all of them. -/
structure DraftCtx where
  seed : Option String
  brand : Option String
  priceCap : Option String
  year : Option String
  location : Option String
  topic : Option String
  unrelatedFragment : Option String
  category : String
  adjective : String
  intent : String
  a : Nat

def drawCtx (a0 : Nat) (seedPhrases : List String) : DraftCtx :=
  let rSeed : Option String × Nat :=
    if seedPhrases.length = 0 then (none, a0)
    else
      let r := pick a0 seedPhrases ""
      (some r.1, r.2)
  let rCat := pick rSeed.2 categories ""
  let rAdj := pick rCat.2 adjectives ""
  let rInt := pick rAdj.2 intents ""
  let bBrand := chanceDraw rInt.2 (35 / 100)
  let rBrand := optPick bBrand.1 bBrand.2 brands
  let bPrice := chanceDraw rBrand.2 (25 / 100)
  let rPrice : Option String × Nat :=
    if bPrice.1 then
      let r := pick bPrice.2 priceCapAmounts 0
      (some ("under $" ++ toString r.1), r.2)
    else (none, bPrice.2)
  let bYear := chanceDraw rPrice.2 (2 / 10)
  let rYear : Option String × Nat :=
    if bYear.1 then
      let r := pick bYear.2 yearTags 0
      (some (toString r.1), r.2)
    else (none, bYear.2)
  let bLoc := chanceDraw rYear.2 (2 / 10)
  let rLoc := optPick bLoc.1 bLoc.2 locations
  let bTopic := chanceDraw rLoc.2 (35 / 100)
  let rTopic := optPick bTopic.1 bTopic.2 topics
  let bMix := chanceDraw rTopic.2 (28 / 100)
  let rMix := optPick bMix.1 bMix.2 mixFragments
  ⟨rSeed.1, rBrand.1, rPrice.1, rYear.1, rLoc.1, rTopic.1, rMix.1,
    rCat.1, rAdj.1, rInt.1, rMix.2⟩

/-- Pattern selection (`randomChoice(rng, patterns)`, line 230) followed by
invocation of the selected closure. -/
def templateQueryDraft (a0 : Nat) (seedPhrases : List String) : String × Nat :=
  let ctx := drawCtx a0 seedPhrases
  let rPat := mulberry32Step ctx.a
  applyPattern (chooseIdx rPat.1 12) rPat.2 ctx.seed ctx.brand ctx.priceCap
    ctx.year ctx.location ctx.topic ctx.unrelatedFragment ctx.category
    ctx.adjective ctx.intent

/-- Lines 232-237: with probability 0.25 append one qualifier suffix. -/
def qualifierStep (q : String × Nat) : String × Nat :=
  let b := chanceDraw q.2 (25 / 100)
  if b.1 then
    let r := pick b.2 qualifierSuffixes ""
    (q.1 ++ " " ++ r.1, r.2)
  else (q.1, b.2)

/-- Lines 239-241: with probability 0.2 append a random integer in [2,128]. -/
def numberStep (q : String × Nat) : String × Nat :=
  let b := chanceDraw q.2 (2 / 10)
  if b.1 then
    let r := randomInt b.2 2 128
    (q.1 ++ " " ++ toString r.1, r.2)
  else (q.1, b.2)

/-- `templateQuery(rng, seedPhrases)` (lines 171-243) with explicit state
passing, draw for draw in source order: the value draws, the pattern draw
and its invocation, the two optional suffixes, then
`q.replace(/\s+/g, " ").trim()`. -/
def templateQuery (a0 : Nat) (seedPhrases : List String) : String × Nat :=
  let q2 := numberStep (qualifierStep (templateQueryDraft a0 seedPhrases))
  (jsTrimStr (collapseStr q2.1), q2.2)

/-- The rng state just before the (n+1)-st `nextQuery()` call of a Query
Source built over `mulberry32 seed` with phrase list `phrases`. -/
def queryStreamState (seed : Int) (phrases : List String) : Nat → Nat
  | 0 => mulberry32Init seed
  | n + 1 => (templateQuery (queryStreamState seed phrases n) phrases).2

/-- The n-th query string produced by that Query Source. -/
def queryAt (seed : Int) (phrases : List String) (n : Nat) : String :=
  (templateQuery (queryStreamState seed phrases n) phrases).1

/-! ## The session loop (src/unnamed/part_000)

The browser page and context are external collaborators.  `Env` is the
oracle describing their behaviour: each kind of external query the loop makes
is answered by a stream indexed by how many calls of that kind have happened
(`S` carries the call counters).  Best-effort operations whose failures are
swallowed and whose outcomes the control flow never reads
(`maybeHandleConsent`, `scrollIntoViewIfNeeded`, the click with its
popup/in-place race, `returnFromProduct`, `page.close`) have no observable
effect in the model.  Log lines and page interactions that the claims speak
about are recorded as an event trace, in emission order. -/

inductive Ev where
  | query_start (query url : String)
  | query_end (query : String)
  | query_error (query error : String)
  | visited (url : String)
  | wheel (dy : Int)
  | sleep (ms : Int)
deriving DecidableEq, Repr

/-- The session-shape part of `RunConfig` (part_000, lines 183-200); the
browser-launch fields are glue consumed outside the modelled code.  Duration
and count fields are JS numbers, kept as rationals. -/
structure RunConfig where
  locale : String
  maxQueries : Nat
  minDwellMs : ℚ
  maxDwellMs : ℚ
  minBetweenQueriesMs : ℚ
  maxBetweenQueriesMs : ℚ
  maxProductOpensPerQuery : ℚ
  maxScrollsPerPage : ℚ
  maxPagesPerQuery : ℚ
  logVisitedUrls : Bool

/-- Environment oracle: `gotoFail k` is `some e` when the k-th `page.goto`
throws an error whose string form is `e`; `blocked k` is the k-th `isBlocked`
answer; `productCount k` the k-th product-link count (`count()` failures are
already mapped to 0 by the source's `.catch(() => 0)`); `nextVisible k` the
k-th next-page-visibility answer. -/
structure Env where
  gotoFail : Nat → Option String
  blocked : Nat → Bool
  productCount : Nat → Nat
  nextVisible : Nat → Bool

/-- Execution state: rng state plus one call counter per oracle stream. -/
structure S where
  rng : Nat
  kGoto : Nat
  kBlock : Nat
  kProd : Nat
  kNext : Nat
deriving DecidableEq, Repr

def drawIntS (s : S) (lo hi : ℚ) : Int × S :=
  let r := randomInt s.rng lo hi
  (r.1, { s with rng := r.2 })

/-- `jitter(rng, lo, hi)` = `sleep(randomInt(rng, lo, hi))` (humanize.ts,
lines 26-32); the pause duration is recorded. -/
def jitterS (s : S) (lo hi : ℚ) : List Ev × S :=
  let r := drawIntS s lo hi
  ([Ev.sleep r.1], r.2)

def isBlockedS (env : Env) (s : S) : Bool × S :=
  (env.blocked s.kBlock, { s with kBlock := s.kBlock + 1 })

def clickNextS (env : Env) (s : S) : Bool × S :=
  (env.nextVisible s.kNext, { s with kNext := s.kNext + 1 })

/-- `humanScroll(page, rng, steps)` (humanize.ts, lines 44-54): per step a
wheel delta in `[320, 980]` then a `jitter(rng, 250, 900)`. -/
def humanScrollS (steps : Nat) (s : S) : List Ev × S :=
  match steps with
  | 0 => ([], s)
  | n + 1 =>
    let rd := drawIntS s 320 980
    let rj := jitterS rd.2 250 900
    let rest := humanScrollS n rj.2
    (Ev.wheel rd.1 :: rj.1 ++ rest.1, rest.2)

/-- `String(new Error("Blocked/captcha detected on Google."))`, the form in
which the session loop logs the block error. -/
def blockedErrorMsg : String := "Error: Blocked/captcha detected on Google."

/-- Result of `openRandomProduct` (part_000, lines 44-72).  `pickedIdx` is a
ghost observation of the drawn link index.  The function never throws: every
awaited page operation in it carries a `.catch`, and it returns `true` on
both the popup and the in-place-navigation outcome of the click. -/
structure OpenRes where
  opened : Bool
  pickedIdx : Option Int
  trace : List Ev
  s : S
deriving DecidableEq, Repr

def openRandomProductS (env : Env) (s0 : S) : OpenRes :=
  let count := env.productCount s0.kProd
  let s := { s0 with kProd := s0.kProd + 1 }
  if count = 0 then ⟨false, none, [], s⟩
  else
    let pickLimit := min count 20
    let ri := drawIntS s 0 ((pickLimit : ℚ) - 1)
    let rj := jitterS ri.2 200 900
    ⟨true, some ri.1, rj.1, rj.2⟩

/-- The product-open sub-loop of `browseShoppingForQuery` (part_000, lines
118-125), by remaining budget.  `attempts` is the ghost list of
`openRandomProduct` results in order; `err` is the stringified thrown error
when a pre-open block check fires. -/
structure ProdRes where
  attempts : List Bool
  trace : List Ev
  err : Option String
  s : S
deriving DecidableEq, Repr

def productLoop (env : Env) (cfg : RunConfig) : Nat → S → ProdRes
  | 0, s => ⟨[], [], none, s⟩
  | n + 1, s =>
    let rb := isBlockedS env s
    if rb.1 then ⟨[], [], some blockedErrorMsg, rb.2⟩
    else
      let ro := openRandomProductS env rb.2
      if ro.opened then
        let rd := jitterS ro.s cfg.minDwellMs cfg.maxDwellMs
        let rr := jitterS rd.2 500 2000
        let rest := productLoop env cfg n rr.2
        ⟨true :: rest.attempts, ro.trace ++ rd.1 ++ rr.1 ++ rest.trace, rest.err, rest.s⟩
      else ⟨[false], ro.trace, none, ro.s⟩

/-- The per-page loop of `browseShoppingForQuery` (part_000, lines 113-132),
by remaining page budget.  `pageDraws` is the ghost list of the
(scroll-count, product-open-count) draws of each page actually browsed. -/
structure PageRes where
  pageDraws : List (Int × Int)
  trace : List Ev
  err : Option String
  s : S
deriving DecidableEq, Repr

def pageLoop (env : Env) (cfg : RunConfig) : Nat → S → PageRes
  | 0, s => ⟨[], [], none, s⟩
  | r + 1, s =>
    let rs := drawIntS s 2 (max 2 cfg.maxScrollsPerPage)
    let hs := humanScrollS rs.1.toNat rs.2
    let rp := drawIntS hs.2 0 (max 0 cfg.maxProductOpensPerQuery)
    let pl := productLoop env cfg rp.1.toNat rp.2
    match pl.err with
    | some e => ⟨[(rs.1, rp.1)], hs.1 ++ pl.trace, some e, pl.s⟩
    | none =>
      if r = 0 then ⟨[(rs.1, rp.1)], hs.1 ++ pl.trace, none, pl.s⟩
      else
        let rn := clickNextS env pl.s
        if rn.1 then
          let rj := jitterS rn.2 1000 4000
          let rest := pageLoop env cfg r rj.2
          ⟨(rs.1, rp.1) :: rest.pageDraws, hs.1 ++ pl.trace ++ rj.1 ++ rest.trace,
            rest.err, rest.s⟩
        else ⟨[(rs.1, rp.1)], hs.1 ++ pl.trace, none, rn.2⟩

/-- `getHlFromLocale` (part_000, lines 14-17): first `"-"`-separated piece,
defaulted to `"en"` when empty, lowercased. -/
def toLowerStr (s : String) : String := ⟨s.data.map Char.toLower⟩

def getHlFromLocale (locale : String) : String :=
  let lang := String.mk (locale.data.takeWhile fun c => c ≠ '-')
  toLowerStr (if lang.data.isEmpty then "en" else lang)

/-- `encodeURIComponent`: unreserved characters pass through, every other
character is percent-encoded byte by byte in UTF-8 with uppercase hex. -/
def isUnreservedUriChar (c : Char) : Bool :=
  ('A' ≤ c && c ≤ 'Z') || ('a' ≤ c && c ≤ 'z') || ('0' ≤ c && c ≤ '9') ||
  c = '-' || c = '_' || c = '.' || c = '!' || c = '~' || c = '*' ||
  c = Char.ofNat 39 || c = '(' || c = ')'

def utf8ByteList (c : Char) : List Nat :=
  let n := c.toNat
  if n < 128 then [n]
  else if n < 2048 then [192 + n / 64, 128 + n % 64]
  else if n < 65536 then [224 + n / 4096, 128 + (n / 64) % 64, 128 + n % 64]
  else [240 + n / 262144, 128 + (n / 4096) % 64, 128 + (n / 64) % 64, 128 + n % 64]

def hexDigitChar (n : Nat) : Char :=
  if n < 10 then Char.ofNat (48 + n) else Char.ofNat (55 + n)

def percentEncodeByte (b : Nat) : List Char :=
  ['%', hexDigitChar (b / 16), hexDigitChar (b % 16)]

def encodeURIComponentModel (s : String) : String :=
  ⟨(s.data.map fun c =>
      if isUnreservedUriChar c then [c]
      else ((utf8ByteList c).map percentEncodeByte).flatten).flatten⟩

/-- The fixed results-URL format (part_000, lines 100-102). -/
def mkShoppingUrl (hl query : String) : String :=
  "https://www.google.com/search?tbm=shop&hl=" ++ encodeURIComponentModel hl ++
    "&q=" ++ encodeURIComponentModel query

/-- Result of one `browseShoppingForQuery` call (part_000, lines 98-136).
`pages` is the ghost `pagesToBrowse` draw (`none` when the run fails before
the draw). -/
structure BrowseRes where
  pages : Option Int
  pageDraws : List (Int × Int)
  trace : List Ev
  err : Option String
  s : S
deriving DecidableEq, Repr

def browseShoppingForQueryS (env : Env) (cfg : RunConfig) (query : String)
    (s0 : S) : BrowseRes :=
  let url := mkShoppingUrl (getHlFromLocale cfg.locale) query
  let startEv := Ev.query_start query url
  match env.gotoFail s0.kGoto with
  | some e => ⟨none, [], [startEv], some e, { s0 with kGoto := s0.kGoto + 1 }⟩
  | none =>
    let s1 : S := { s0 with kGoto := s0.kGoto + 1 }
    let visitedTr := if cfg.logVisitedUrls then [Ev.visited url] else []
    let rb := isBlockedS env s1
    if rb.1 then ⟨none, [], startEv :: visitedTr, some blockedErrorMsg, rb.2⟩
    else
      let rp := drawIntS rb.2 1 (max 1 cfg.maxPagesPerQuery)
      let pr := pageLoop env cfg rp.1.toNat rp.2
      match pr.err with
      | some e => ⟨some rp.1, pr.pageDraws, startEv :: visitedTr ++ pr.trace, some e, pr.s⟩
      | none =>
        let rd := jitterS pr.s cfg.minDwellMs cfg.maxDwellMs
        ⟨some rp.1, pr.pageDraws,
          startEv :: visitedTr ++ pr.trace ++ rd.1 ++ [Ev.query_end query], none, rd.2⟩

/-- The outer loop of `runShoppingSession` (part_000, lines 164-174), by
remaining query budget; `i` is the index of the next query.  On a thrown
error the `catch` logs `query_error` with the query text and `String(err)`
and `break`s: nothing at all runs after it. -/
def sessionLoop (env : Env) (cfg : RunConfig) (qsrc : Nat → String) :
    Nat → Nat → S → List Ev × S
  | 0, _, s => ([], s)
  | n + 1, i, s =>
    let q := qsrc i
    let r := browseShoppingForQueryS env cfg q s
    match r.err with
    | some e => (r.trace ++ [Ev.query_error q e], r.s)
    | none =>
      let rj := jitterS r.s cfg.minBetweenQueriesMs cfg.maxBetweenQueriesMs
      let rest := sessionLoop env cfg qsrc n (i + 1) rj.2
      (r.trace ++ rj.1 ++ rest.1, rest.2)

def runShoppingSessionS (env : Env) (cfg : RunConfig) (qsrc : Nat → String)
    (seed : Int) : List Ev × S :=
  sessionLoop env cfg qsrc cfg.maxQueries 0 ⟨mulberry32Init seed, 0, 0, 0, 0⟩

def sessionTrace (env : Env) (cfg : RunConfig) (qsrc : Nat → String)
    (seed : Int) : List Ev :=
  (runShoppingSessionS env cfg qsrc seed).1

/-! ## Trace predicates and concrete scenario data -/

def isErrorEv : Ev → Bool
  | Ev.query_error _ _ => true
  | _ => false

def errFree (l : List Ev) : Bool := l.all fun e => !isErrorEv e

def isMainEv : Ev → Bool
  | Ev.wheel _ => false
  | Ev.sleep _ => false
  | Ev.visited _ => false
  | _ => true

/-- The query_start / query_end / query_error skeleton of a trace. -/
def mainEvents (l : List Ev) : List Ev := l.filter isMainEv

/-- Every wheel event has delta in `[320, 980]` and is immediately followed
by a sleep of `[250, 900]` ms. -/
def wheelOk : List Ev → Bool
  | [] => true
  | Ev.wheel dy :: rest =>
    (match rest with
     | Ev.sleep ms :: _ =>
       decide (320 ≤ dy) && decide (dy ≤ 980) && decide (250 ≤ ms) && decide (ms ≤ 900)
     | _ => false) && wheelOk rest
  | _ :: rest => wheelOk rest

/-- The spec's session-loop scenario configuration: three queries, one
results page, two scroll steps, no product opens. -/
def cfgScn : RunConfig :=
  { locale := "en-US", maxQueries := 3, minDwellMs := 1000, maxDwellMs := 1000,
    minBetweenQueriesMs := 7000, maxBetweenQueriesMs := 7000,
    maxProductOpensPerQuery := 0, maxScrollsPerPage := 2, maxPagesPerQuery := 1,
    logVisitedUrls := false }

/-- Page stub for the scenario: block detection fires on its second check,
i.e. on the second query. -/
def envScn : Env :=
  { gotoFail := fun _ => none, blocked := fun k => k == 1,
    productCount := fun _ => 0, nextVisible := fun _ => false }

/-- Query Source stub returning "a", "b", "c". -/
def qsrcScn : Nat → String := fun i => ["a", "b", "c"].getD i ""

/-- Page stub whose very first block check fires. -/
def envBlockedNow : Env :=
  { gotoFail := fun _ => none, blocked := fun _ => true,
    productCount := fun _ => 0, nextVisible := fun _ => false }

/-- Benign page stub: never blocked, five product links, no next page. -/
def envBenign : Env :=
  { gotoFail := fun _ => none, blocked := fun _ => false,
    productCount := fun _ => 5, nextVisible := fun _ => false }

def s0W : S := ⟨mulberry32Init 1, 0, 0, 0, 0⟩

/-! ## Basic RNG lemmas -/

theorem mulberry32Step_fst_lt (a : Nat) : (mulberry32Step a).1 < 4294967296 :=
  Nat.mod_lt _ (by norm_num)

theorem rngQ_nonneg (u : Nat) : 0 ≤ rngQ u := by
  unfold rngQ; positivity

theorem rngQ_lt_one {u : Nat} (h : u < 4294967296) : rngQ u < 1 := by
  unfold rngQ
  rw [div_lt_one (by norm_num)]
  exact_mod_cast h

theorem randomIntCore_mem {u : Nat} (hu : u < 4294967296) (lo hi : ℚ)
    (h : ⌈lo⌉ ≤ ⌊hi⌋) :
    ⌈lo⌉ ≤ randomIntCore u lo hi ∧ randomIntCore u lo hi ≤ ⌊hi⌋ := by
  unfold randomIntCore
  have hk : (0 : ℚ) < (⌊hi⌋ : ℚ) - (⌈lo⌉ : ℚ) + 1 := by
    have : ((⌈lo⌉ : ℚ)) ≤ ((⌊hi⌋ : ℚ)) := by exact_mod_cast h
    linarith
  constructor
  · have h0 : (0 : ℤ) ≤ ⌊rngQ u * ((⌊hi⌋ : ℚ) - (⌈lo⌉ : ℚ) + 1)⌋ :=
      Int.floor_nonneg.mpr (mul_nonneg (rngQ_nonneg u) (le_of_lt hk))
    omega
  · have hlt : rngQ u * ((⌊hi⌋ : ℚ) - (⌈lo⌉ : ℚ) + 1) < ((⌊hi⌋ - ⌈lo⌉ + 1 : ℤ) : ℚ) := by
      have h1 : rngQ u * ((⌊hi⌋ : ℚ) - (⌈lo⌉ : ℚ) + 1) < 1 * ((⌊hi⌋ : ℚ) - (⌈lo⌉ : ℚ) + 1) :=
        mul_lt_mul_of_pos_right (rngQ_lt_one hu) hk
      have h2 : ((⌊hi⌋ - ⌈lo⌉ + 1 : ℤ) : ℚ) = (⌊hi⌋ : ℚ) - (⌈lo⌉ : ℚ) + 1 := by
        push_cast; ring
      rw [h2]; linarith
    have := Int.floor_lt.mpr hlt
    omega

theorem randomInt_mem (a : Nat) (lo hi : ℚ) (h : ⌈lo⌉ ≤ ⌊hi⌋) :
    ⌈lo⌉ ≤ (randomInt a lo hi).1 ∧ (randomInt a lo hi).1 ≤ ⌊hi⌋ := by
  unfold randomInt
  rw [if_neg (by omega)]
  exact randomIntCore_mem (mulberry32Step_fst_lt a) lo hi h

theorem chooseIdx_lt {u n : Nat} (hu : u < 4294967296) (hn : 0 < n) :
    chooseIdx u n < n := by
  unfold chooseIdx
  have : u * n < 4294967296 * n :=
    Nat.mul_lt_mul_of_lt_of_le hu (le_refl n) hn
  exact Nat.div_lt_of_lt_mul (by omega)

theorem pick_mem {α : Type} (a : Nat) (items : List α) (dflt : α)
    (h : items ≠ []) : (pick a items dflt).1 ∈ items := by
  unfold pick randomChoice
  have hlen : items.length ≠ 0 := by
    simpa [List.length_eq_zero] using h
  simp only [hlen, if_neg]
  have hidx : chooseIdx (mulberry32Step a).1 items.length < items.length :=
    chooseIdx_lt (mulberry32Step_fst_lt a) (Nat.pos_of_ne_zero hlen)
  simp only [List.getElem?_eq_getElem hidx, Option.getD_some]
  exact List.getElem_mem hidx

/-- Every value of the non-degenerate range is attained by some draw
numerator, provided the range has at most 2^32 values (the draw has 2^32
possible numerators).  This is the support half of "uniformly from the
range". -/
theorem randomIntCore_surj (lo hi : ℚ) (v : Int) (h1 : ⌈lo⌉ ≤ v) (h2 : v ≤ ⌊hi⌋)
    (hk : ⌊hi⌋ - ⌈lo⌉ + 1 ≤ 4294967296) :
    ∃ u : Nat, u < 4294967296 ∧ randomIntCore u lo hi = v := by
  set m : Int := ⌈lo⌉ with hm
  set M : Int := ⌊hi⌋ with hM
  set k : Nat := (M - m + 1).toNat with hkdef
  have hkpos : 0 < k := by omega
  have hkle : k ≤ 4294967296 := by omega
  set j : Nat := (v - m).toNat with hj
  have hjk : j < k := by omega
  set N : Nat := j * 4294967296 with hN
  refine ⟨(N + k - 1) / k, ?_, ?_⟩
  · have hj1 : j + 1 ≤ k := hjk
    have hmul : (j + 1) * 4294967296 ≤ k * 4294967296 :=
      Nat.mul_le_mul_right _ hj1
    -- N + k - 1 < k * 4294967296, hence the quotient is < 4294967296
    have hlt : N + k - 1 < k * 4294967296 := by
      have : N + 4294967296 ≤ k * 4294967296 := by
        calc N + 4294967296 = (j + 1) * 4294967296 := by ring
        _ ≤ k * 4294967296 := hmul
      omega
    exact Nat.div_lt_of_lt_mul (by omega)
  · set u : Nat := (N + k - 1) / k with hu
    have hdm0 : k * u + (N + k - 1) % k = N + k - 1 := Nat.div_add_mod (N + k - 1) k
    have hdm : u * k + (N + k - 1) % k = N + k - 1 := by
      rw [Nat.mul_comm] at hdm0; exact hdm0
    have hmod : (N + k - 1) % k < k := Nat.mod_lt (N + k - 1) hkpos
    have hlow : N ≤ u * k := by omega
    have hhigh : u * k ≤ N + k - 1 := by omega
    -- the rational draw times the range width floors to exactly j
    have hkQ : ((M : ℚ) - (m : ℚ) + 1) = ((k : ℚ)) := by
      have : ((k : Int) : ℚ) = (k : ℚ) := by push_cast; ring
      rw [← this]
      have hk2 : (k : Int) = M - m + 1 := by omega
      rw [hk2]; push_cast; ring
    have hfl : ⌊rngQ u * ((M : ℚ) - (m : ℚ) + 1)⌋ = (j : Int) := by
      rw [hkQ]
      rw [Int.floor_eq_iff]
      unfold rngQ
      have hlow' : j * 4294967296 ≤ u * k := hN ▸ hlow
      have hhigh' : u * k < (j + 1) * 4294967296 := by
        have h5 : u * k < N + 4294967296 := by omega
        calc u * k < N + 4294967296 := h5
        _ = (j + 1) * 4294967296 := by rw [hN]; ring
      constructor
      · rw [div_mul_eq_mul_div, le_div_iff₀ (by norm_num)]
        have hcast : ((j * 4294967296 : Nat) : ℚ) ≤ ((u * k : Nat) : ℚ) := by
          exact_mod_cast hlow'
        push_cast at hcast ⊢
        linarith
      · rw [div_mul_eq_mul_div, div_lt_iff₀ (by norm_num)]
        have hcast : ((u * k : Nat) : ℚ) < (((j + 1) * 4294967296 : Nat) : ℚ) := by
          exact_mod_cast hhigh'
        push_cast at hcast ⊢
        linarith
    unfold randomIntCore
    rw [← hm, ← hM, hfl]
    omega

/-- **C4.** `randomInt(rng, min, max)` returns an integer in
`[ceil(min), floor(max)]` when that range is non-empty, and returns the
resolved minimum `ceil(min)` when `floor(max) < ceil(min)`; in particular
`randomInt(rng, 5, 5)` always returns 5 and `randomInt(rng, 5, 2)` always
returns 5, for every rng state. -/
theorem C4_randomInt_range (a : Nat) (lo hi : ℚ) :
    (⌈lo⌉ ≤ ⌊hi⌋ → ⌈lo⌉ ≤ (randomInt a lo hi).1 ∧ (randomInt a lo hi).1 ≤ ⌊hi⌋) ∧
    (⌊hi⌋ < ⌈lo⌉ → (randomInt a lo hi).1 = ⌈lo⌉) ∧
    (randomInt a 5 5).1 = 5 ∧ (randomInt a 5 2).1 = 5 := by
  refine ⟨fun h => randomInt_mem a lo hi h, fun h => ?_, ?_, ?_⟩
  · unfold randomInt
    rw [if_pos h]
  · have h55 : (⌈(5 : ℚ)⌉ : Int) = 5 := by norm_num
    have h55' : (⌊(5 : ℚ)⌋ : Int) = 5 := by norm_num
    have := randomInt_mem a 5 5 (by rw [h55, h55'])
    rw [h55, h55'] at this
    omega
  · unfold randomInt
    rw [if_pos (by norm_num)]
    norm_num

theorem C4_randomInt_range_witness :
    ((⌈(3 : ℚ)⌉ ≤ ⌊(7 : ℚ)⌋) ∧
      ⌈(3 : ℚ)⌉ ≤ (randomInt 0 3 7).1 ∧ (randomInt 0 3 7).1 ≤ ⌊(7 : ℚ)⌋) ∧
    ((⌊(2 : ℚ)⌋ < ⌈(5 : ℚ)⌉) ∧ (randomInt 0 5 2).1 = ⌈(5 : ℚ)⌉) := by
  exact ⟨⟨by norm_num, (C4_randomInt_range 0 3 7).1 (by norm_num)⟩,
    by norm_num, (C4_randomInt_range 0 5 2).2.1 (by norm_num)⟩

/-- **C5.** `randomChoice(rng, items)` fails (throws `InvalidArgument`,
modelled as `none`) exactly when `items` is empty; on a non-empty collection
it returns an element of the collection, and on a one-element collection it
returns that element. -/
theorem C5_randomChoice_spec {α : Type} (a : Nat) (items : List α) :
    ((randomChoice a items).1 = none ↔ items = []) ∧
    (items ≠ [] → ∃ x ∈ items, (randomChoice a items).1 = some x) ∧
    (∀ x, items = [x] → (randomChoice a items).1 = some x) := by
  refine ⟨?_, ?_, ?_⟩
  · constructor
    · intro h
      by_contra hne
      have hlen : items.length ≠ 0 := by simpa [List.length_eq_zero] using hne
      unfold randomChoice at h
      rw [if_neg hlen] at h
      have hidx : chooseIdx (mulberry32Step a).1 items.length < items.length :=
        chooseIdx_lt (mulberry32Step_fst_lt a) (Nat.pos_of_ne_zero hlen)
      rw [List.getElem?_eq_getElem hidx] at h
      exact Option.some_ne_none _ h
    · intro h
      subst h
      unfold randomChoice
      simp
  · intro hne
    have hlen : items.length ≠ 0 := by simpa [List.length_eq_zero] using hne
    have hidx : chooseIdx (mulberry32Step a).1 items.length < items.length :=
      chooseIdx_lt (mulberry32Step_fst_lt a) (Nat.pos_of_ne_zero hlen)
    refine ⟨items[chooseIdx (mulberry32Step a).1 items.length], List.getElem_mem hidx, ?_⟩
    unfold randomChoice
    rw [if_neg hlen, List.getElem?_eq_getElem hidx]
  · intro x hx
    subst hx
    unfold randomChoice
    have hidx : chooseIdx (mulberry32Step a).1 1 < 1 :=
      chooseIdx_lt (mulberry32Step_fst_lt a) (by norm_num)
    simp only [List.length_singleton]
    rw [if_neg (by norm_num)]
    have : chooseIdx (mulberry32Step a).1 1 = 0 := by omega
    rw [this]
    rfl

theorem C5_randomChoice_spec_witness :
    ((("x" : String) :: []) ≠ [] ∧
      ∃ x ∈ ["x"], (randomChoice 7 ["x"]).1 = some x) ∧
    ((randomChoice 7 ["x"]).1 = some "x") := by
  refine ⟨⟨by decide, (C5_randomChoice_spec 7 ["x"]).2.1 (by decide)⟩, ?_⟩
  exact (C5_randomChoice_spec 7 ["x"]).2.2 "x" rfl

/-- **C9.** `mulberry32` reduces its seed modulo 2^32 before use (`seed >>> 0`):
congruent seeds alias to the same initial state and hence to identical draw
sequences; out-of-range seeds are accepted, not rejected. -/
theorem C9_seed_aliasing (s s' : Int) (h : s % 4294967296 = s' % 4294967296) :
    mulberry32Init s = mulberry32Init s' ∧
    (∀ n, mulberryState s n = mulberryState s' n) ∧
    (∀ n, mulberryDraw s n = mulberryDraw s' n) := by
  have hinit : mulberry32Init s = mulberry32Init s' := by
    unfold mulberry32Init
    rw [h]
  have hstate : ∀ n, mulberryState s n = mulberryState s' n := by
    intro n
    induction n with
    | zero => exact hinit
    | succ k ih => simp only [mulberryState]; rw [ih]
  exact ⟨hinit, hstate, fun n => by unfold mulberryDraw; rw [hstate n]⟩

theorem C9_seed_aliasing_witness :
    ((4294967338 : Int) % 4294967296 = (42 : Int) % 4294967296) ∧
    mulberry32Init 4294967338 = mulberry32Init 42 ∧
    mulberryDraw 4294967338 0 = mulberryDraw 42 0 := by
  refine ⟨by norm_num, (C9_seed_aliasing 4294967338 42 (by norm_num)).1,
    (C9_seed_aliasing 4294967338 42 (by norm_num)).2.2 0⟩

/-- **C1.** The RNG and the query generator are deterministic functions of the
seed: two generators built from equal seeds produce identical infinite draw
sequences, and two Query Sources built over them with the same phrase list
produce identical query streams. -/
theorem C1_determinism (s s' : Int) (h : s = s') (phrases : List String) :
    (∀ n, mulberryDraw s n = mulberryDraw s' n) ∧
    (∀ n, queryAt s phrases n = queryAt s' phrases n) := by
  subst h
  exact ⟨fun _ => rfl, fun _ => rfl⟩

theorem C1_determinism_witness :
    mulberryDraw 42 0 = mulberryDraw 42 0 ∧
    queryAt 42 ["wireless earbuds"] 0 = queryAt 42 ["wireless earbuds"] 0 :=
  ⟨(C1_determinism 42 42 rfl ["wireless earbuds"]).1 0,
   (C1_determinism 42 42 rfl ["wireless earbuds"]).2 0⟩

/-! ## Whitespace lemmas -/

theorem mem_dropWhile_of_not {c : Char} {p : Char → Bool} {l : List Char}
    (hc : ¬p c = true) (h : c ∈ l) : c ∈ l.dropWhile p := by
  induction l with
  | nil => cases h
  | cons d ds ih =>
    rw [List.dropWhile_cons]
    by_cases hd : p d = true
    · rw [if_pos hd]
      rcases List.mem_cons.mp h with rfl | h2
      · exact absurd hd hc
      · exact ih h2
    · rw [if_neg hd]; exact h

theorem dropWhile_suffix_ex (p : Char → Bool) (l : List Char) :
    ∃ s, s ++ l.dropWhile p = l := by
  induction l with
  | nil => exact ⟨[], rfl⟩
  | cons c cs ih =>
    by_cases h : p c = true
    · obtain ⟨s, hs⟩ := ih
      exact ⟨c :: s, by simp [List.dropWhile_cons, h, hs]⟩
    · exact ⟨[], by simp [List.dropWhile_cons, h]⟩

theorem mem_trimL {c : Char} (hc : isWs c = false) {l : List Char} (h : c ∈ l) :
    c ∈ trimL l := by
  unfold trimL
  rw [List.mem_reverse]
  apply mem_dropWhile_of_not (by simp [hc])
  rw [List.mem_reverse]
  exact mem_dropWhile_of_not (by simp [hc]) h

theorem mem_collapseGo {c : Char} (hc : isWs c = false) :
    ∀ (l : List Char) (b : Bool), c ∈ l → c ∈ collapseGo b l := by
  intro l
  induction l with
  | nil => intro b h; cases h
  | cons d ds ih =>
    intro b h
    by_cases hd : isWs d = true
    · have h2 : c ∈ ds := by
        rcases List.mem_cons.mp h with rfl | h2
        · rw [hc] at hd; cases hd
        · exact h2
      cases b with
      | true => simpa [collapseGo, hd] using ih true h2
      | false =>
        simp only [collapseGo, hd, if_pos, if_neg]
        exact List.mem_cons_of_mem _ (ih true h2)
    · rcases List.mem_cons.mp h with rfl | h2
      · simp [collapseGo, hd]
      · simp only [collapseGo, hd]
        simp only [Bool.false_eq_true, if_false]
        exact List.mem_cons_of_mem _ (ih false h2)

theorem headNotWs_dropWhile (l : List Char) :
    headNotWs (l.dropWhile fun c => isWs c) = true := by
  induction l with
  | nil => rfl
  | cons c cs ih =>
    rw [List.dropWhile_cons]
    by_cases h : isWs c = true
    · simpa [h] using ih
    · simp [headNotWs, h]

theorem headNotWs_collapseGo_true (l : List Char) :
    headNotWs (collapseGo true l) = true := by
  induction l with
  | nil => rfl
  | cons c cs ih =>
    by_cases h : isWs c = true
    · simpa [collapseGo, h] using ih
    · simp [collapseGo, h, headNotWs]

theorem chain'_cons_of_headNotWs {c : Char} {l : List Char}
    (h : headNotWs l = true) (hl : noTwoWs l) : noTwoWs (c :: l) := by
  rw [noTwoWs, List.chain'_cons']
  refine ⟨?_, hl⟩
  intro y hy
  cases l with
  | nil => cases hy
  | cons d ds =>
    simp only [List.head?_cons, Option.mem_def, Option.some.injEq] at hy
    subst hy
    simp only [headNotWs, Bool.not_eq_true'] at h
    intro hcon
    rw [h] at hcon
    exact Bool.false_ne_true hcon.2

theorem chain'_cons_of_not_ws {c : Char} {l : List Char}
    (hc : isWs c = false) (hl : noTwoWs l) : noTwoWs (c :: l) := by
  rw [noTwoWs, List.chain'_cons']
  refine ⟨?_, hl⟩
  intro y _ hcon
  rw [hc] at hcon
  exact Bool.false_ne_true hcon.1

theorem noTwoWs_collapseGo (l : List Char) : ∀ b, noTwoWs (collapseGo b l) := by
  induction l with
  | nil => intro b; simp [collapseGo, noTwoWs]
  | cons c cs ih =>
    intro b
    by_cases h : isWs c = true
    · cases b with
      | true => simpa [collapseGo, h] using ih true
      | false =>
        simp only [collapseGo, h, if_pos, Bool.false_eq_true, if_false]
        exact chain'_cons_of_headNotWs (headNotWs_collapseGo_true cs) (ih true)
    · simp only [collapseGo, h, Bool.false_eq_true, if_false]
      exact chain'_cons_of_not_ws (by simpa using h) (ih false)

theorem noTwoWs_tail {c : Char} {l : List Char} (h : noTwoWs (c :: l)) : noTwoWs l :=
  List.Chain'.tail h

theorem noTwoWs_dropWhile {l : List Char} (h : noTwoWs l) (p : Char → Bool) :
    noTwoWs (l.dropWhile p) := by
  induction l with
  | nil => simpa using h
  | cons c cs ih =>
    rw [List.dropWhile_cons]
    by_cases hc : p c = true
    · rw [if_pos hc]; exact ih (noTwoWs_tail h)
    · rw [if_neg hc]; exact h

theorem noTwoWs_reverse {l : List Char} (h : noTwoWs l) : noTwoWs l.reverse := by
  rw [noTwoWs, List.chain'_reverse]
  exact List.Chain'.imp (fun a b hab hcon => hab ⟨hcon.2, hcon.1⟩) h

theorem noTwoWs_trimL {l : List Char} (h : noTwoWs l) : noTwoWs (trimL l) := by
  unfold trimL
  exact noTwoWs_reverse (noTwoWs_dropWhile (noTwoWs_reverse (noTwoWs_dropWhile h _)) _)

theorem headNotWs_keepFront {m : List Char} (p : Char → Bool)
    (h : headNotWs m = true) :
    headNotWs (List.reverse ((m.reverse).dropWhile p)) = true := by
  obtain ⟨s, hs⟩ := dropWhile_suffix_ex p m.reverse
  have hm : List.reverse ((m.reverse).dropWhile p) ++ s.reverse = m := by
    have h2 := congrArg List.reverse hs
    simpa [List.reverse_append] using h2
  cases hrr : List.reverse ((m.reverse).dropWhile p) with
  | nil => rfl
  | cons c cs =>
    rw [hrr] at hm
    have hmc : m = c :: (cs ++ s.reverse) := by rw [← hm]; simp
    rw [hmc] at h
    simpa [headNotWs] using h

theorem headNotWs_trimL (l : List Char) : headNotWs (trimL l) = true := by
  unfold trimL
  exact headNotWs_keepFront _ (headNotWs_dropWhile l)

theorem lastNotWs_trimL (l : List Char) : headNotWs (trimL l).reverse = true := by
  unfold trimL
  rw [List.reverse_reverse]
  exact headNotWs_dropWhile _

/-! ## String-level solidity lemmas -/

theorem hasSolid_append_left {s : String} (t : String) (h : hasSolid s = true) :
    hasSolid (s ++ t) = true := by
  unfold hasSolid at h ⊢
  rw [String.data_append, List.any_append, h, Bool.true_or]

theorem hasSolid_append_right (s : String) {t : String} (h : hasSolid t = true) :
    hasSolid (s ++ t) = true := by
  unfold hasSolid at h ⊢
  rw [String.data_append, List.any_append, h, Bool.or_true]

theorem hasSolid_jsTrim {s : String} (h : hasSolid s = true) :
    hasSolid (jsTrimStr s) = true := by
  unfold hasSolid at h ⊢
  rw [List.any_eq_true] at h ⊢
  obtain ⟨c, hc, hsol⟩ := h
  exact ⟨c, mem_trimL (by simpa using hsol) hc, hsol⟩

theorem hasSolid_collapse {s : String} (h : hasSolid s = true) :
    hasSolid (collapseStr s) = true := by
  unfold hasSolid at h ⊢
  rw [List.any_eq_true] at h ⊢
  obtain ⟨c, hc, hsol⟩ := h
  exact ⟨c, mem_collapseGo (by simpa using hsol) _ false hc, hsol⟩

theorem hasSolid_ne_empty {s : String} (h : hasSolid s = true) : s ≠ "" := by
  unfold hasSolid at h
  rw [List.any_eq_true] at h
  obtain ⟨c, hc, _⟩ := h
  intro he
  subst he
  simp at hc

theorem categories_solid : ∀ s ∈ categories, hasSolid s = true := by decide

theorem categories_ne_nil : categories ≠ [] := by decide

theorem solid_pick_categories (a : Nat) (dflt : String) :
    hasSolid (pick a categories dflt).1 = true :=
  categories_solid _ (pick_mem a categories dflt categories_ne_nil)

theorem applyPattern_solid (i a : Nat)
    (seed brand priceCap year location topic unrelatedFragment : Option String)
    (category adjective intent : String) (hcat : hasSolid category = true) :
    hasSolid (applyPattern i a seed brand priceCap year location topic
      unrelatedFragment category adjective intent).1 = true :=
  match i with
  | 0 => hasSolid_jsTrim (hasSolid_append_left _ (hasSolid_append_left _
      (hasSolid_append_right _ hcat)))
  | 1 => hasSolid_jsTrim (hasSolid_append_left _ (hasSolid_append_left _
      (hasSolid_append_right _ hcat)))
  | 2 => hasSolid_jsTrim (hasSolid_append_left _ (hasSolid_append_left _
      (hasSolid_append_left _ (hasSolid_append_left _ hcat))))
  | 3 => hasSolid_jsTrim (hasSolid_append_left _ (hasSolid_append_left _
      (hasSolid_append_right _ hcat)))
  | 4 => hasSolid_jsTrim (hasSolid_append_left _ (hasSolid_append_left _
      (hasSolid_append_right _ hcat)))
  | 5 => hasSolid_jsTrim (hasSolid_append_left _ (hasSolid_append_left _
      (hasSolid_append_left _ (hasSolid_append_left _ hcat))))
  | 6 => hasSolid_collapse (hasSolid_jsTrim (hasSolid_append_left _
      (hasSolid_append_left _ (hasSolid_append_left _ (hasSolid_append_left _ hcat)))))
  | 7 => hasSolid_jsTrim (hasSolid_append_right _ hcat)
  | 8 => hasSolid_jsTrim (hasSolid_append_left _ (hasSolid_append_left _
      (hasSolid_append_left _ (hasSolid_append_left _ hcat))))
  | 9 => hasSolid_jsTrim (hasSolid_append_right _ hcat)
  | 10 => hasSolid_collapse (hasSolid_jsTrim (hasSolid_append_left _
      (hasSolid_append_left _ (hasSolid_append_left _ (hasSolid_append_left _
        (hasSolid_append_right _ hcat))))))
  | _ + 11 => hasSolid_jsTrim (hasSolid_append_left _ (hasSolid_append_left _
      (hasSolid_append_left _ (hasSolid_append_left _ (solid_pick_categories a "")))))

theorem solid_fst_ifPair {c : Prop} [Decidable c] {x y : String × Nat}
    (hx : hasSolid x.1 = true) (hy : hasSolid y.1 = true) :
    hasSolid (if c then x else y).1 = true := by
  split
  · exact hx
  · exact hy

theorem solid_qualifierStep {q : String × Nat} (h : hasSolid q.1 = true) :
    hasSolid (qualifierStep q).1 = true := by
  delta qualifierStep
  apply solid_fst_ifPair
  · exact hasSolid_append_left _ (hasSolid_append_left _ h)
  · exact h

theorem solid_numberStep {q : String × Nat} (h : hasSolid q.1 = true) :
    hasSolid (numberStep q).1 = true := by
  delta numberStep
  apply solid_fst_ifPair
  · exact hasSolid_append_left _ (hasSolid_append_left _ h)
  · exact h

theorem drawCtx_category (a0 : Nat) (phrases : List String) :
    ∃ a, (drawCtx a0 phrases).category = (pick a categories "").1 :=
  ⟨_, rfl⟩

theorem solid_draft (a0 : Nat) (phrases : List String) :
    hasSolid (templateQueryDraft a0 phrases).1 = true := by
  delta templateQueryDraft
  apply applyPattern_solid
  obtain ⟨a, ha⟩ := drawCtx_category a0 phrases
  rw [ha]
  exact solid_pick_categories a ""

theorem templateQuery_solid (a0 : Nat) (phrases : List String) :
    hasSolid (templateQuery a0 phrases).1 = true := by
  delta templateQuery
  apply hasSolid_jsTrim
  apply hasSolid_collapse
  exact solid_numberStep (solid_qualifierStep (solid_draft a0 phrases))

theorem templateQuery_shape (a : Nat) (phrases : List String) :
    ∃ q s, templateQuery a phrases = (jsTrimStr (collapseStr q), s) :=
  ⟨_, _, rfl⟩

/-- **C2.** For every rng state and every seed-phrase list (including the
empty one), `templateQuery` returns a non-empty string with no two
consecutive whitespace characters and no leading or trailing whitespace. -/
theorem C2_templateQuery_wellformed (a : Nat) (phrases : List String) :
    (templateQuery a phrases).1 ≠ "" ∧
    noTwoWs (templateQuery a phrases).1.data ∧
    headNotWs (templateQuery a phrases).1.data = true ∧
    headNotWs (templateQuery a phrases).1.data.reverse = true := by
  obtain ⟨q, s2, heq⟩ := templateQuery_shape a phrases
  have hsolid := templateQuery_solid a phrases
  rw [heq] at hsolid ⊢
  refine ⟨hasSolid_ne_empty hsolid, ?_, ?_, ?_⟩
  · exact noTwoWs_trimL (noTwoWs_collapseGo _ false)
  · exact headNotWs_trimL _
  · exact lastNotWs_trimL _

/-! ## Seed-phrase loading: claims C6 and C10 -/

theorem filterMap_normalizeSeedLine (ls : List String) :
    ls.filterMap normalizeSeedLine =
      (ls.map jsTrimStr).filter
        (fun s => !s.data.isEmpty && !(decide (s.data.head? = some '#'))) := by
  induction ls with
  | nil => rfl
  | cons l t ih =>
    simp only [List.filterMap_cons, List.map_cons, List.filter_cons]
    rw [ih]
    unfold normalizeSeedLine
    by_cases h1 : (jsTrimStr l).data.isEmpty
    · simp [h1]
    · by_cases h2 : (jsTrimStr l).data.head? = some '#'
      · simp [h1, h2]
      · simp [h1, h2]

/-- **C6.** Seed-phrase loading keeps exactly the trimmed lines that are
non-blank and do not start with `'#'`; the example file yields exactly
`["wireless earbuds"]`; an absent path or failed read yields `[]` without
error. -/
theorem C6_seed_loading (content : String) :
    loadSeedPhrases (some content) =
      ((splitLines content).map jsTrimStr).filter
        (fun s => !s.data.isEmpty && !(decide (s.data.head? = some '#'))) ∧
    loadSeedPhrases (some "# comment\n\nwireless earbuds") = ["wireless earbuds"] ∧
    loadSeedPhrases none = [] := by
  refine ⟨?_, by decide, rfl⟩
  unfold loadSeedPhrases
  exact filterMap_normalizeSeedLine _

theorem C6_seed_loading_witness :
    loadSeedPhrases (some "x\n# y") =
      ((splitLines "x\n# y").map jsTrimStr).filter
        (fun s => !s.data.isEmpty && !(decide (s.data.head? = some '#'))) :=
  (C6_seed_loading "x\n# y").1

/-- **C10.** Every phrase the loader returns — for any file content — is a
non-empty string with no leading or trailing whitespace whose first character
is not `'#'`; the Query Source captures this list immutably
(`buildQuerySourcePhrases`), so the invariant holds for its whole lifetime. -/
theorem C10_seed_phrase_invariant (content : Option String) (s : String)
    (h : s ∈ buildQuerySourcePhrases content) :
    s ≠ "" ∧ headNotWs s.data = true ∧ headNotWs s.data.reverse = true ∧
    s.data.head? ≠ some '#' := by
  unfold buildQuerySourcePhrases loadSeedPhrases at h
  cases content with
  | none => cases h
  | some c =>
    rw [List.mem_filterMap] at h
    obtain ⟨l, _, hl⟩ := h
    unfold normalizeSeedLine at hl
    by_cases h1 : (jsTrimStr l).data.isEmpty
    · rw [if_pos h1] at hl; cases hl
    · rw [if_neg h1] at hl
      by_cases h2 : (jsTrimStr l).data.head? = some '#'
      · rw [if_pos h2] at hl; cases hl
      · rw [if_neg h2] at hl
        have hs := Option.some.inj hl
        subst hs
        refine ⟨fun he => h1 ?_, headNotWs_trimL _, lastNotWs_trimL _, h2⟩
        rw [he]
        rfl

/-! ## Session-loop trace lemmas -/

theorem errFree_append {a b : List Ev} (ha : errFree a = true) (hb : errFree b = true) :
    errFree (a ++ b) = true := by
  unfold errFree at ha hb ⊢
  rw [List.all_append, ha, hb]
  rfl

theorem errFree_cons {e : Ev} {l : List Ev} (he : isErrorEv e = false)
    (hl : errFree l = true) : errFree (e :: l) = true := by
  unfold errFree at hl ⊢
  rw [List.all_cons, he, hl]
  rfl

theorem errFree_jitter (s : S) (lo hi : ℚ) : errFree (jitterS s lo hi).1 = true := rfl

theorem errFree_humanScroll (n : Nat) (s : S) :
    errFree (humanScrollS n s).1 = true := by
  induction n generalizing s with
  | zero => rfl
  | succ k ih =>
    exact errFree_cons rfl (errFree_append (errFree_jitter _ _ _) (ih _))

theorem errFree_open (env : Env) (s : S) :
    errFree (openRandomProductS env s).trace = true := by
  simp only [openRandomProductS]
  split
  · rfl
  · exact errFree_jitter _ _ _

theorem errFree_productLoop (env : Env) (cfg : RunConfig) (n : Nat) (s : S) :
    errFree (productLoop env cfg n s).trace = true := by
  induction n generalizing s with
  | zero => rfl
  | succ k ih =>
    simp only [productLoop]
    split
    · rfl
    · split
      · exact errFree_append (errFree_append (errFree_append (errFree_open _ _)
          (errFree_jitter _ _ _)) (errFree_jitter _ _ _)) (ih _)
      · exact errFree_open _ _

theorem errFree_pageLoop (env : Env) (cfg : RunConfig) (n : Nat) (s : S) :
    errFree (pageLoop env cfg n s).trace = true := by
  induction n generalizing s with
  | zero => rfl
  | succ k ih =>
    simp only [pageLoop]
    split
    · exact errFree_append (errFree_humanScroll _ _) (errFree_productLoop _ _ _ _)
    · split
      · exact errFree_append (errFree_humanScroll _ _) (errFree_productLoop _ _ _ _)
      · split
        · exact errFree_append (errFree_append (errFree_append
            (errFree_humanScroll _ _) (errFree_productLoop _ _ _ _))
            (errFree_jitter _ _ _)) (ih _)
        · exact errFree_append (errFree_humanScroll _ _) (errFree_productLoop _ _ _ _)

theorem errFree_visitedTr (cfg : RunConfig) (url : String) :
    errFree (if cfg.logVisitedUrls then [Ev.visited url] else []) = true := by
  split <;> rfl

theorem errFree_browse (env : Env) (cfg : RunConfig) (q : String) (s : S) :
    errFree (browseShoppingForQueryS env cfg q s).trace = true := by
  simp only [browseShoppingForQueryS]
  split
  · exact errFree_cons rfl rfl
  · split
    · exact errFree_cons rfl (errFree_visitedTr _ _)
    · split
      · exact errFree_cons rfl (errFree_append (errFree_visitedTr _ _)
          (errFree_pageLoop _ _ _ _))
      · exact errFree_cons rfl (errFree_append (errFree_append (errFree_append
          (errFree_visitedTr _ _) (errFree_pageLoop _ _ _ _))
          (errFree_jitter _ _ _)) rfl)

/-- A trace is error-free, or has exactly one `query_error` and it is the
very last event. -/
def goodTail (l : List Ev) : Prop :=
  errFree l = true ∨
    ∃ l' q e, l = l' ++ [Ev.query_error q e] ∧ errFree l' = true

theorem sessionLoop_good (env : Env) (cfg : RunConfig) (qsrc : Nat → String) :
    ∀ (n i : Nat) (s : S), goodTail (sessionLoop env cfg qsrc n i s).1 := by
  intro n
  induction n with
  | zero => intro i s; left; rfl
  | succ k ih =>
    intro i s
    simp only [sessionLoop]
    split
    · right
      exact ⟨_, _, _, rfl, errFree_browse _ _ _ _⟩
    · rcases ih (i + 1) _ with h | ⟨l', q', e', heq, hfree⟩
      · left
        exact errFree_append (errFree_append (errFree_browse _ _ _ _)
          (errFree_jitter _ _ _)) h
      · right
        refine ⟨(browseShoppingForQueryS env cfg (qsrc i) s).trace ++
          ((jitterS (browseShoppingForQueryS env cfg (qsrc i) s).s
            cfg.minBetweenQueriesMs cfg.maxBetweenQueriesMs).1 ++ l'), q', e', ?_, ?_⟩
        · rw [heq]
          simp [List.append_assoc]
        · exact errFree_append (errFree_browse _ _ _ _)
            (errFree_append (errFree_jitter _ _ _) hfree)

theorem goodTail_last {l : List Ev} (hg : goodTail l) {t₁ t₂ : List Ev}
    {q e : String} (heq : l = t₁ ++ Ev.query_error q e :: t₂) : t₂ = [] := by
  rcases hg with hfree | ⟨l', q', e', hls, hfree⟩
  · exfalso
    have hmem : Ev.query_error q e ∈ l :=
      heq ▸ List.mem_append_right _ (List.mem_cons_self _ _)
    unfold errFree at hfree
    rw [List.all_eq_true] at hfree
    have h2 := hfree _ hmem
    simp [isErrorEv] at h2
  · subst hls
    have hlen : l'.length + 1 = t₁.length + (t₂.length + 1) := by
      have h3 := congrArg List.length heq
      simpa [List.length_append] using h3
    by_cases hlt : t₁.length < l'.length
    · exfalso
      have h1 : (l' ++ [Ev.query_error q' e'])[t₁.length]? = some (Ev.query_error q e) := by
        rw [heq, List.getElem?_append_right (le_refl _), Nat.sub_self]
        simp
      rw [List.getElem?_append_left hlt] at h1
      obtain ⟨hbound, hget⟩ := List.getElem?_eq_some.mp h1
      have hmem : Ev.query_error q e ∈ l' := hget ▸ List.getElem_mem hbound
      unfold errFree at hfree
      rw [List.all_eq_true] at hfree
      have h2 := hfree _ hmem
      simp [isErrorEv] at h2
    · have h4 : t₂.length = 0 := by omega
      exact List.length_eq_zero.mp h4

/-- **C3.** Whenever processing a query throws, the loop logs a `query_error`
with that query's text and the stringified error, and nothing further runs:
in every session trace, a `query_error` event is the final event (no retry,
no skip-to-next-query, no later `query_start`).  The second conjunct is the
spec's concrete scenario: queries "a","b","c" with block detection firing on
the second query — `query_start "c"` never occurs. -/
theorem C3_session_stops_on_error :
    (∀ (env : Env) (cfg : RunConfig) (qsrc : Nat → String) (seed : Int)
       (t₁ : List Ev) (q e : String) (t₂ : List Ev),
       sessionTrace env cfg qsrc seed = t₁ ++ Ev.query_error q e :: t₂ → t₂ = []) ∧
    mainEvents (sessionTrace envScn cfgScn qsrcScn 1) =
      [Ev.query_start "a" "https://www.google.com/search?tbm=shop&hl=en&q=a",
       Ev.query_end "a",
       Ev.query_start "b" "https://www.google.com/search?tbm=shop&hl=en&q=b",
       Ev.query_error "b" "Error: Blocked/captcha detected on Google."] := by
  refine ⟨?_, by decide⟩
  intro env cfg qsrc seed t₁ q e t₂ heq
  exact goodTail_last (sessionLoop_good env cfg qsrc _ _ _) heq

theorem C3_session_stops_on_error_witness :
    (sessionTrace envBlockedNow cfgScn qsrcScn 1 =
      [Ev.query_start "a" "https://www.google.com/search?tbm=shop&hl=en&q=a"] ++
        Ev.query_error "a" "Error: Blocked/captcha detected on Google." :: []) ∧
    ([] : List Ev) = [] :=
  ⟨by decide,
   C3_session_stops_on_error.1 envBlockedNow cfgScn qsrcScn 1
     [Ev.query_start "a" "https://www.google.com/search?tbm=shop&hl=en&q=a"]
     "a" "Error: Blocked/captcha detected on Google." [] (by decide)⟩

/-! ## Draw-range lemmas for the browse phase (claim C7) -/

theorem drawIntS_bounds (s : S) (lo hi : ℚ) (h : ⌈lo⌉ ≤ ⌊hi⌋) :
    ⌈lo⌉ ≤ (drawIntS s lo hi).1 ∧ (drawIntS s lo hi).1 ≤ ⌊hi⌋ :=
  randomInt_mem s.rng lo hi h

theorem floor_max_ge (c : ℚ) (x : ℚ) : ⌊(c : ℚ)⌋ ≤ ⌊max c x⌋ :=
  Int.floor_le_floor (le_max_left c x)

theorem scroll_draw_bounds (s : S) (cfg : RunConfig) :
    2 ≤ (drawIntS s 2 (max 2 cfg.maxScrollsPerPage)).1 ∧
    (drawIntS s 2 (max 2 cfg.maxScrollsPerPage)).1 ≤ ⌊max 2 cfg.maxScrollsPerPage⌋ := by
  have hb := drawIntS_bounds s 2 (max 2 cfg.maxScrollsPerPage) ?_
  · have h2 : ⌈(2 : ℚ)⌉ = 2 := by norm_num
    rw [h2] at hb
    exact hb
  · have h3 := floor_max_ge 2 cfg.maxScrollsPerPage
    have h4 : ⌊(2 : ℚ)⌋ = 2 := by norm_num
    have h2 : ⌈(2 : ℚ)⌉ = 2 := by norm_num
    omega

theorem opens_draw_bounds (s : S) (cfg : RunConfig) :
    0 ≤ (drawIntS s 0 (max 0 cfg.maxProductOpensPerQuery)).1 ∧
    (drawIntS s 0 (max 0 cfg.maxProductOpensPerQuery)).1 ≤
      ⌊max 0 cfg.maxProductOpensPerQuery⌋ := by
  have hb := drawIntS_bounds s 0 (max 0 cfg.maxProductOpensPerQuery) ?_
  · have h2 : ⌈(0 : ℚ)⌉ = 0 := by norm_num
    rw [h2] at hb
    exact hb
  · have h3 := floor_max_ge 0 cfg.maxProductOpensPerQuery
    have h4 : ⌊(0 : ℚ)⌋ = 0 := by norm_num
    have h2 : ⌈(0 : ℚ)⌉ = 0 := by norm_num
    omega

theorem pages_draw_bounds (s : S) (cfg : RunConfig) :
    1 ≤ (drawIntS s 1 (max 1 cfg.maxPagesPerQuery)).1 ∧
    (drawIntS s 1 (max 1 cfg.maxPagesPerQuery)).1 ≤ ⌊max 1 cfg.maxPagesPerQuery⌋ := by
  have hb := drawIntS_bounds s 1 (max 1 cfg.maxPagesPerQuery) ?_
  · have h2 : ⌈(1 : ℚ)⌉ = 1 := by norm_num
    rw [h2] at hb
    exact hb
  · have h3 := floor_max_ge 1 cfg.maxPagesPerQuery
    have h4 : ⌊(1 : ℚ)⌋ = 1 := by norm_num
    have h2 : ⌈(1 : ℚ)⌉ = 1 := by norm_num
    omega

theorem pageLoop_draws_mem (env : Env) (cfg : RunConfig) :
    ∀ (n : Nat) (s : S) (d : Int × Int),
      d ∈ (pageLoop env cfg n s).pageDraws →
      (2 ≤ d.1 ∧ d.1 ≤ ⌊max 2 cfg.maxScrollsPerPage⌋) ∧
      (0 ≤ d.2 ∧ d.2 ≤ ⌊max 0 cfg.maxProductOpensPerQuery⌋) := by
  intro n
  induction n with
  | zero => intro s d hd; cases hd
  | succ k ih =>
    intro s d hd
    simp only [pageLoop] at hd
    split at hd
    · rcases List.mem_singleton.mp hd with rfl
      exact ⟨scroll_draw_bounds _ _, opens_draw_bounds _ _⟩
    · split at hd
      · rcases List.mem_singleton.mp hd with rfl
        exact ⟨scroll_draw_bounds _ _, opens_draw_bounds _ _⟩
      · split at hd
        · rcases List.mem_cons.mp hd with rfl | hd2
          · exact ⟨scroll_draw_bounds _ _, opens_draw_bounds _ _⟩
          · exact ih _ _ hd2
        · rcases List.mem_singleton.mp hd with rfl
          exact ⟨scroll_draw_bounds _ _, opens_draw_bounds _ _⟩

theorem browse_pages_bounds (env : Env) (cfg : RunConfig) (q : String) (s : S) :
    ∀ p, (browseShoppingForQueryS env cfg q s).pages = some p →
      1 ≤ p ∧ p ≤ ⌊max 1 cfg.maxPagesPerQuery⌋ := by
  intro p hp
  simp only [browseShoppingForQueryS] at hp
  split at hp
  · cases hp
  · split at hp
    · cases hp
    · split at hp
      · obtain rfl := Option.some.inj hp
        exact pages_draw_bounds _ _
      · obtain rfl := Option.some.inj hp
        exact pages_draw_bounds _ _

theorem browse_draws_mem (env : Env) (cfg : RunConfig) (q : String) (s : S) :
    ∀ d ∈ (browseShoppingForQueryS env cfg q s).pageDraws,
      (2 ≤ d.1 ∧ d.1 ≤ ⌊max 2 cfg.maxScrollsPerPage⌋) ∧
      (0 ≤ d.2 ∧ d.2 ≤ ⌊max 0 cfg.maxProductOpensPerQuery⌋) := by
  intro d hd
  simp only [browseShoppingForQueryS] at hd
  split at hd
  · cases hd
  · split at hd
    · cases hd
    · split at hd
      · exact pageLoop_draws_mem env cfg _ _ _ hd
      · exact pageLoop_draws_mem env cfg _ _ _ hd

theorem wheelOk_sleep_cons (ms : Int) (l : List Ev) :
    wheelOk (Ev.sleep ms :: l) = wheelOk l := rfl

theorem wheelOk_cons_wheel {dy ms : Int} {l : List Ev}
    (h1 : 320 ≤ dy) (h2 : dy ≤ 980) (h3 : 250 ≤ ms) (h4 : ms ≤ 900)
    (hl : wheelOk l = true) :
    wheelOk (Ev.wheel dy :: Ev.sleep ms :: l) = true := by
  simp only [wheelOk, Bool.and_eq_true, decide_eq_true_eq]
  exact ⟨⟨⟨⟨h1, h2⟩, h3⟩, h4⟩, hl⟩

theorem wheelOk_append {a b : List Ev} (ha : wheelOk a = true) (hb : wheelOk b = true) :
    wheelOk (a ++ b) = true := by
  induction a with
  | nil => simpa using hb
  | cons e rest ih =>
    cases e with
    | wheel dy =>
      cases rest with
      | nil => simp [wheelOk] at ha
      | cons e2 r2 =>
        cases e2 with
        | sleep ms =>
          simp only [wheelOk, Bool.and_eq_true, decide_eq_true_eq] at ha
          show wheelOk (Ev.wheel dy :: Ev.sleep ms :: (r2 ++ b)) = true
          exact wheelOk_cons_wheel ha.1.1.1.1 ha.1.1.1.2 ha.1.1.2 ha.1.2 (ih ha.2)
        | query_start q u => simp [wheelOk] at ha
        | query_end q => simp [wheelOk] at ha
        | query_error q er => simp [wheelOk] at ha
        | visited u => simp [wheelOk] at ha
        | wheel dy2 => simp [wheelOk] at ha
    | query_start q u =>
      rw [List.cons_append]
      simp only [wheelOk] at ha ⊢
      exact ih ha
    | query_end q =>
      rw [List.cons_append]
      simp only [wheelOk] at ha ⊢
      exact ih ha
    | query_error q er =>
      rw [List.cons_append]
      simp only [wheelOk] at ha ⊢
      exact ih ha
    | visited u =>
      rw [List.cons_append]
      simp only [wheelOk] at ha ⊢
      exact ih ha
    | sleep ms =>
      rw [List.cons_append]
      simp only [wheelOk] at ha ⊢
      exact ih ha

theorem wheelOk_cons_other {e : Ev} {l : List Ev}
    (he : (match e with | Ev.wheel _ => False | _ => True))
    (hl : wheelOk l = true) : wheelOk (e :: l) = true := by
  cases e with
  | wheel dy => cases he
  | query_start q u => simpa [wheelOk] using hl
  | query_end q => simpa [wheelOk] using hl
  | query_error q er => simpa [wheelOk] using hl
  | visited u => simpa [wheelOk] using hl
  | sleep ms => simpa [wheelOk] using hl

theorem wheelOk_jitter (s : S) (lo hi : ℚ) : wheelOk (jitterS s lo hi).1 = true := rfl

theorem wheelOk_humanScroll (n : Nat) (s : S) :
    wheelOk (humanScrollS n s).1 = true := by
  induction n generalizing s with
  | zero => rfl
  | succ k ih =>
    have hd := drawIntS_bounds s 320 980 (by norm_num)
    have hj := drawIntS_bounds (drawIntS s 320 980).2 250 900 (by norm_num)
    norm_num at hd hj
    exact wheelOk_cons_wheel hd.1 hd.2 hj.1 hj.2 (ih _)

theorem wheelOk_open (env : Env) (s : S) :
    wheelOk (openRandomProductS env s).trace = true := by
  simp only [openRandomProductS]
  split
  · rfl
  · rfl

theorem wheelOk_productLoop (env : Env) (cfg : RunConfig) (n : Nat) (s : S) :
    wheelOk (productLoop env cfg n s).trace = true := by
  induction n generalizing s with
  | zero => rfl
  | succ k ih =>
    simp only [productLoop]
    split
    · rfl
    · split
      · exact wheelOk_append (wheelOk_append (wheelOk_append (wheelOk_open _ _)
          (wheelOk_jitter _ _ _)) (wheelOk_jitter _ _ _)) (ih _)
      · exact wheelOk_open _ _

theorem wheelOk_pageLoop (env : Env) (cfg : RunConfig) (n : Nat) (s : S) :
    wheelOk (pageLoop env cfg n s).trace = true := by
  induction n generalizing s with
  | zero => rfl
  | succ k ih =>
    simp only [pageLoop]
    split
    · exact wheelOk_append (wheelOk_humanScroll _ _) (wheelOk_productLoop _ _ _ _)
    · split
      · exact wheelOk_append (wheelOk_humanScroll _ _) (wheelOk_productLoop _ _ _ _)
      · split
        · exact wheelOk_append (wheelOk_append (wheelOk_append
            (wheelOk_humanScroll _ _) (wheelOk_productLoop _ _ _ _))
            (wheelOk_jitter _ _ _)) (ih _)
        · exact wheelOk_append (wheelOk_humanScroll _ _) (wheelOk_productLoop _ _ _ _)

theorem wheelOk_visitedTr (cfg : RunConfig) (url : String) :
    wheelOk (if cfg.logVisitedUrls then [Ev.visited url] else []) = true := by
  split <;> rfl

theorem wheelOk_browse (env : Env) (cfg : RunConfig) (q : String) (s : S) :
    wheelOk (browseShoppingForQueryS env cfg q s).trace = true := by
  simp only [browseShoppingForQueryS]
  split
  · rfl
  · split
    · exact wheelOk_cons_other trivial (wheelOk_visitedTr _ _)
    · split
      · exact wheelOk_cons_other trivial (wheelOk_append (wheelOk_visitedTr _ _)
          (wheelOk_pageLoop _ _ _ _))
      · exact wheelOk_cons_other trivial (wheelOk_append (wheelOk_append
          (wheelOk_append (wheelOk_visitedTr _ _) (wheelOk_pageLoop _ _ _ _))
          (wheelOk_jitter _ _ _)) rfl)

theorem wheelOk_index {l : List Ev} (h : wheelOk l = true) :
    ∀ i dy, l[i]? = some (Ev.wheel dy) →
      (320 ≤ dy ∧ dy ≤ 980) ∧
      ∃ ms, l[i + 1]? = some (Ev.sleep ms) ∧ 250 ≤ ms ∧ ms ≤ 900 := by
  induction l with
  | nil => intro i dy hi; simp at hi
  | cons e rest ih =>
    intro i dy hi
    cases i with
    | zero =>
      simp only [List.getElem?_cons_zero] at hi
      obtain rfl := Option.some.inj hi
      cases rest with
      | nil => simp [wheelOk] at h
      | cons e2 r2 =>
        cases e2 with
        | sleep ms =>
          simp only [wheelOk, Bool.and_eq_true, decide_eq_true_eq] at h
          exact ⟨⟨h.1.1.1.1, h.1.1.1.2⟩, ms, by simp, h.1.1.2, h.1.2⟩
        | query_start q u => simp [wheelOk] at h
        | query_end q => simp [wheelOk] at h
        | query_error q er => simp [wheelOk] at h
        | visited u => simp [wheelOk] at h
        | wheel dy2 => simp [wheelOk] at h
    | succ j =>
      have hrest : wheelOk rest = true := by
        cases e with
        | wheel dy2 =>
          cases rest with
          | nil => rfl
          | cons e2 r2 =>
            simp only [wheelOk, Bool.and_eq_true] at h
            exact h.2
        | query_start q u => simpa [wheelOk] using h
        | query_end q => simpa [wheelOk] using h
        | query_error q er => simpa [wheelOk] using h
        | visited u => simpa [wheelOk] using h
        | sleep ms => simpa [wheelOk] using h
      have h7 := ih hrest j dy (by simpa using hi)
      refine ⟨h7.1, ?_⟩
      obtain ⟨ms, hms, h3, h4⟩ := h7.2
      exact ⟨ms, by simpa using hms, h3, h4⟩

/-- **C7.** For every configuration, the browse phase draws its page count
with `randomInt` over `[1, max(1, maxPagesPerQuery)]` and stays in that
range; each browsed page's scroll-step count lies in
`[2, max(2, maxScrollsPerPage)]` and its product-open count in
`[0, max(0, maxProductOpensPerQuery)]`; every wheel event has delta in
`[320, 980]` and is immediately followed by a pause in `[250, 900]` ms; and
(uniform support, for ranges of at most 2^32 values) every value of each
range is attained by some draw numerator. -/
theorem C7_browse_draw_ranges (env : Env) (cfg : RunConfig) (q : String) (s : S) :
    (∀ p, (browseShoppingForQueryS env cfg q s).pages = some p →
       1 ≤ p ∧ p ≤ ⌊max 1 cfg.maxPagesPerQuery⌋) ∧
    (∀ d ∈ (browseShoppingForQueryS env cfg q s).pageDraws,
       (2 ≤ d.1 ∧ d.1 ≤ ⌊max 2 cfg.maxScrollsPerPage⌋) ∧
       (0 ≤ d.2 ∧ d.2 ≤ ⌊max 0 cfg.maxProductOpensPerQuery⌋)) ∧
    (∀ i dy, (browseShoppingForQueryS env cfg q s).trace[i]? = some (Ev.wheel dy) →
       (320 ≤ dy ∧ dy ≤ 980) ∧
       ∃ ms, (browseShoppingForQueryS env cfg q s).trace[i + 1]? = some (Ev.sleep ms) ∧
         250 ≤ ms ∧ ms ≤ 900) ∧
    (∀ v : Int, 1 ≤ v → v ≤ ⌊max 1 cfg.maxPagesPerQuery⌋ →
       ⌊max 1 cfg.maxPagesPerQuery⌋ ≤ 4294967296 →
       ∃ u < 4294967296, randomIntCore u 1 (max 1 cfg.maxPagesPerQuery) = v) ∧
    (∀ v : Int, 2 ≤ v → v ≤ ⌊max 2 cfg.maxScrollsPerPage⌋ →
       ⌊max 2 cfg.maxScrollsPerPage⌋ ≤ 4294967297 →
       ∃ u < 4294967296, randomIntCore u 2 (max 2 cfg.maxScrollsPerPage) = v) ∧
    (∀ v : Int, 0 ≤ v → v ≤ ⌊max 0 cfg.maxProductOpensPerQuery⌋ →
       ⌊max 0 cfg.maxProductOpensPerQuery⌋ ≤ 4294967295 →
       ∃ u < 4294967296, randomIntCore u 0 (max 0 cfg.maxProductOpensPerQuery) = v) := by
  refine ⟨browse_pages_bounds env cfg q s, browse_draws_mem env cfg q s,
    wheelOk_index (wheelOk_browse env cfg q s), ?_, ?_, ?_⟩
  · intro v h1 h2 hk
    have hc : ⌈(1 : ℚ)⌉ = 1 := by norm_num
    exact randomIntCore_surj 1 (max 1 cfg.maxPagesPerQuery) v (by omega) h2 (by omega)
  · intro v h1 h2 hk
    have hc : ⌈(2 : ℚ)⌉ = 2 := by norm_num
    exact randomIntCore_surj 2 (max 2 cfg.maxScrollsPerPage) v (by omega) h2 (by omega)
  · intro v h1 h2 hk
    have hc : ⌈(0 : ℚ)⌉ = 0 := by norm_num
    exact randomIntCore_surj 0 (max 0 cfg.maxProductOpensPerQuery) v (by omega) h2 (by omega)

theorem C7_browse_draw_ranges_witness :
    ((browseShoppingForQueryS envBenign cfgScn "a" s0W).pages = some 1 ∧
      (1 : Int) ≤ 1 ∧ (1 : Int) ≤ ⌊max 1 cfgScn.maxPagesPerQuery⌋) ∧
    (((2 : Int), (0 : Int)) ∈ (browseShoppingForQueryS envBenign cfgScn "a" s0W).pageDraws ∧
      ((2 : Int) ≤ 2 ∧ (2 : Int) ≤ ⌊max 2 cfgScn.maxScrollsPerPage⌋) ∧
      ((0 : Int) ≤ 0 ∧ (0 : Int) ≤ ⌊max 0 cfgScn.maxProductOpensPerQuery⌋)) ∧
    (((320 : Int) ≤ 668 ∧ (668 : Int) ≤ 980) ∧
      ∃ ms, (browseShoppingForQueryS envBenign cfgScn "a" s0W).trace[1 + 1]? =
          some (Ev.sleep ms) ∧ 250 ≤ ms ∧ ms ≤ 900) ∧
    (∃ u < 4294967296, randomIntCore u 1 (max 1 cfgScn.maxPagesPerQuery) = 1) ∧
    (∃ u < 4294967296, randomIntCore u 2 (max 2 cfgScn.maxScrollsPerPage) = 2) ∧
    (∃ u < 4294967296, randomIntCore u 0 (max 0 cfgScn.maxProductOpensPerQuery) = 0) := by
  refine ⟨⟨by decide, (C7_browse_draw_ranges envBenign cfgScn "a" s0W).1 1 (by decide)⟩,
    ⟨by decide, (C7_browse_draw_ranges envBenign cfgScn "a" s0W).2.1 (2, 0) (by decide)⟩,
    (C7_browse_draw_ranges envBenign cfgScn "a" s0W).2.2.1 1 668 (by decide),
    (C7_browse_draw_ranges envBenign cfgScn "a" s0W).2.2.2.1 1 (by norm_num) (by decide)
      (by decide),
    (C7_browse_draw_ranges envBenign cfgScn "a" s0W).2.2.2.2.1 2 (by norm_num) (by decide)
      (by decide),
    (C7_browse_draw_ranges envBenign cfgScn "a" s0W).2.2.2.2.2 0 (by norm_num) (by decide)
      (by decide)⟩

/-! ## Product-open lemmas (claim C8) -/

theorem productLoop_false_last (env : Env) (cfg : RunConfig) :
    ∀ (n : Nat) (s : S) (l1 l2 : List Bool),
      (productLoop env cfg n s).attempts = l1 ++ false :: l2 → l2 = [] := by
  intro n
  induction n with
  | zero =>
    intro s l1 l2 h
    simp only [productLoop] at h
    exact absurd h (by simp)
  | succ k ih =>
    intro s l1 l2 h
    simp only [productLoop] at h
    split at h
    · exact absurd h (by simp)
    · split at h
      · cases l1 with
        | nil => simp at h
        | cons b l1' =>
          rw [List.cons_append] at h
          obtain ⟨hb, ht⟩ := List.cons.inj h
          exact ih _ l1' l2 ht
      · cases l1 with
        | nil =>
          simp only [List.nil_append] at h
          exact ((List.cons.inj h).2).symm
        | cons b l1' =>
          rw [List.cons_append] at h
          obtain ⟨hb, ht⟩ := List.cons.inj h
          exact absurd ht.symm (by simp)

theorem productLoop_length (env : Env) (cfg : RunConfig) :
    ∀ (n : Nat) (s : S), (productLoop env cfg n s).attempts.length ≤ n := by
  intro n
  induction n with
  | zero => intro s; simp [productLoop]
  | succ k ih =>
    intro s
    simp only [productLoop]
    split
    · simp
    · split
      · simp only [List.length_cons]
        exact Nat.succ_le_succ (ih _)
      · simp

/-- **C8.** With zero matching product links, `openRandomProduct` reports
"nothing opened" (`false`) without drawing or throwing, and the product-open
sub-loop ends at the first `false` attempt, skipping the rest of the budget
without error; with at least one candidate, the link index is drawn among at
most the first 20 candidates (`< min count 20`). -/
theorem C8_openRandomProduct (env : Env) (cfg : RunConfig) (s : S) (n : Nat) :
    (env.productCount s.kProd = 0 →
       openRandomProductS env s =
         ⟨false, none, [], { s with kProd := s.kProd + 1 }⟩) ∧
    (1 ≤ env.productCount s.kProd →
       (openRandomProductS env s).opened = true ∧
       ∃ i, (openRandomProductS env s).pickedIdx = some i ∧
         0 ≤ i ∧ i < ((min (env.productCount s.kProd) 20 : Nat) : Int)) ∧
    (∀ l1 l2, (productLoop env cfg n s).attempts = l1 ++ false :: l2 → l2 = []) ∧
    (productLoop env cfg n s).attempts.length ≤ n := by
  refine ⟨?_, ?_, productLoop_false_last env cfg n s, productLoop_length env cfg n s⟩
  · intro h
    simp [openRandomProductS, h]
  · intro h
    have hne : ¬(env.productCount s.kProd = 0) := by omega
    have hmin : 1 ≤ min (env.productCount s.kProd) 20 := by omega
    have hfloor : ⌊((min (env.productCount s.kProd) 20 : Nat) : ℚ) - 1⌋ =
        ((min (env.productCount s.kProd) 20 : Nat) : Int) - 1 := by
      have hcast : ((min (env.productCount s.kProd) 20 : Nat) : ℚ) - 1 =
          ((((min (env.productCount s.kProd) 20 : Nat) : Int) - 1 : Int) : ℚ) := by
        push_cast
        ring
      rw [hcast, Int.floor_intCast]
    have hceil : ⌈(0 : ℚ)⌉ = 0 := by norm_num
    have hb := randomInt_mem ({ s with kProd := s.kProd + 1 } : S).rng 0
      (((min (env.productCount s.kProd) 20 : Nat) : ℚ) - 1) ?_
    · constructor
      · simp [openRandomProductS, hne]
      · refine ⟨(drawIntS { s with kProd := s.kProd + 1 } 0
          (((min (env.productCount s.kProd) 20 : Nat) : ℚ) - 1)).1, ?_, ?_, ?_⟩
        · simp [openRandomProductS, hne, drawIntS]
        · have h0 := hb.1
          rw [hceil] at h0
          exact h0
        · have h1 := hb.2
          rw [hfloor] at h1
          have h2 : (1 : Int) ≤ ((min (env.productCount s.kProd) 20 : Nat) : Int) := by
            exact_mod_cast hmin
          have h3 : (drawIntS { s with kProd := s.kProd + 1 } 0
              (((min (env.productCount s.kProd) 20 : Nat) : ℚ) - 1)).1 =
            (randomInt ({ s with kProd := s.kProd + 1 } : S).rng 0
              (((min (env.productCount s.kProd) 20 : Nat) : ℚ) - 1)).1 := rfl
          rw [h3]
          omega
    · rw [hceil, hfloor]
      have h2 : (1 : Int) ≤ ((min (env.productCount s.kProd) 20 : Nat) : Int) := by
        exact_mod_cast hmin
      omega

theorem C8_openRandomProduct_witness :
    (envScn.productCount s0W.kProd = 0 ∧
      openRandomProductS envScn s0W =
        ⟨false, none, [], { s0W with kProd := s0W.kProd + 1 }⟩) ∧
    (1 ≤ envBenign.productCount s0W.kProd ∧
      (openRandomProductS envBenign s0W).opened = true ∧
      ∃ i, (openRandomProductS envBenign s0W).pickedIdx = some i ∧
        0 ≤ i ∧ i < ((min (envBenign.productCount s0W.kProd) 20 : Nat) : Int)) ∧
    ((productLoop envScn cfgScn 2 s0W).attempts = [] ++ false :: [] ∧
      ([] : List Bool) = []) := by
  refine ⟨⟨rfl, (C8_openRandomProduct envScn cfgScn s0W 2).1 rfl⟩,
    ⟨by decide, (C8_openRandomProduct envBenign cfgScn s0W 2).2.1 (by decide)⟩,
    ⟨by decide, (C8_openRandomProduct envScn cfgScn s0W 2).2.2.1 [] [] (by decide)⟩⟩

theorem C10_seed_phrase_invariant_witness :
    (("wireless earbuds" : String) ∈
      buildQuerySourcePhrases (some "# comment\n\nwireless earbuds")) ∧
    ("wireless earbuds" : String) ≠ "" ∧
    headNotWs ("wireless earbuds" : String).data = true ∧
    headNotWs ("wireless earbuds" : String).data.reverse = true ∧
    ("wireless earbuds" : String).data.head? ≠ some '#' :=
  ⟨by decide,
   C10_seed_phrase_invariant (some "# comment\n\nwireless earbuds")
     "wireless earbuds" (by decide)⟩
